import Mathlib

/-!
Verification of an in-memory user CRUD HTTP service (src/index.ts).

The service keeps an object mapping integer ids to user records plus a
monotonically increasing id counter, and exposes five routes: list users,
get by id, create, update, delete.  We embed the data model and the route
handlers shallowly: JavaScript untyped request-body fields become `JsValue`,
the JS object holding users becomes an association list, `parseInt` and
`String.prototype.trim` and the email regex are modelled as executable Lean
functions, and each Express handler becomes a function from the store and
request data to a response together with the post-request store.
-/

/-- A JavaScript value as far as the validation logic observes it: the
handlers only test falsiness, string-typedness, and the string payload.
Numbers are modelled as integers. -/
inductive JsValue where
  | undef
  | null
  | bool (b : Bool)
  | num (n : Int)
  | str (s : String)
deriving DecidableEq, Repr

/-- JS falsiness of a value (`!v` in the source): undefined, null, false,
0 and the empty string are falsy. -/
def JsValue.falsy : JsValue → Bool
  | .undef => true
  | .null => true
  | .bool b => !b
  | .num n => n == 0
  | .str s => s == ""

/-- Whether `typeof v === "string"` holds. -/
def JsValue.isStr : JsValue → Bool
  | .str _ => true
  | _ => false

/-- The string payload of a value; only meaningful when `isStr` holds
(the handlers only read it after validation has established that). -/
def JsValue.asStr : JsValue → String
  | .str s => s
  | _ => ""

/-- A request body as accessed by the handlers: the `name` and `email`
fields of `req.body` (absent fields read as `undefined`). -/
structure Body where
  name : JsValue
  email : JsValue
deriving DecidableEq, Repr

/-- JS `String.prototype.trim` on a character list: strip whitespace from
both ends. -/
def trimL (l : List Char) : List Char :=
  ((l.dropWhile Char.isWhitespace).reverse.dropWhile Char.isWhitespace).reverse

/-- JS `String.prototype.trim`. -/
def trimStr (s : String) : String :=
  String.mk (trimL s.data)

/-- A character allowed in every chunk of the email regex: the class
regex-class of characters that are neither whitespace nor the at sign. -/
def isEmailChar (c : Char) : Bool :=
  !c.isWhitespace && !(c == '@')

/-- Whether a character list contains a dot at a position other than the
last one (so that a nonempty chunk can follow the dot). -/
def dotNotLast : List Char → Bool
  | [] => false
  | [_] => false
  | c :: rest => c == '.' || dotNotLast rest

/-- Backtracking-free matcher for the anchored email regex of the source,
one-or-more class characters, at sign, one-or-more class characters, dot,
one-or-more class characters: the local part is everything before the first
at sign (the class excludes the at sign, so a match must split there), and
the domain must be nonempty class characters containing an inner dot. -/
def emailMatchL (l : List Char) : Bool :=
  match l.dropWhile (fun c => !(c == '@')) with
  | a :: d :: rest =>
      a == '@'
        && !(l.takeWhile (fun c => !(c == '@'))).isEmpty
        && (l.takeWhile (fun c => !(c == '@'))).all isEmailChar
        && isEmailChar d && rest.all isEmailChar && dotNotLast rest
  | _ => false

/-- The email regex test of the source, on strings. -/
def emailMatch (s : String) : Bool :=
  emailMatchL s.data

/-- The declarative reading of the anchored email regex: the string splits
as a nonempty class chunk, an at sign, a nonempty class chunk, a dot, and a
nonempty class chunk. -/
def EmailPatternL (l : List Char) : Prop :=
  ∃ A B C : List Char,
    A ≠ [] ∧ B ≠ [] ∧ C ≠ [] ∧
    (∀ c ∈ A, isEmailChar c = true) ∧
    (∀ c ∈ B, isEmailChar c = true) ∧
    (∀ c ∈ C, isEmailChar c = true) ∧
    l = A ++ '@' :: (B ++ '.' :: C)

/-- The error message pushed when the name field is missing, not a string,
or empty after trimming. -/
def nameErrMsg : String := "Name is required and must be a non-empty string"

/-- The error message pushed when the email field is missing, not a string,
or empty after trimming. -/
def emailReqErrMsg : String := "Email is required and must be a non-empty string"

/-- The error message pushed when the email field is a nonempty string that
fails the email regex. -/
def emailFmtErrMsg : String := "Email must be a valid email address"

/-- validateUserData from the source: check the name field, then the email
field, accumulating error messages in order; valid iff no errors. -/
def validateUserData (data : Body) : Bool × List String :=
  let errors : List String := []
  let errors :=
    if data.name.falsy || !data.name.isStr || trimStr data.name.asStr == "" then
      errors ++ [nameErrMsg]
    else errors
  let errors :=
    if data.email.falsy || !data.email.isStr || trimStr data.email.asStr == "" then
      errors ++ [emailReqErrMsg]
    else if !emailMatch data.email.asStr then
      errors ++ [emailFmtErrMsg]
    else errors
  (errors.isEmpty, errors)

/-- The name-field check in isolation: the errors it contributes. -/
def nameCheck (v : JsValue) : List String :=
  if v.falsy || !v.isStr || trimStr v.asStr == "" then [nameErrMsg] else []

/-- The email-field check in isolation: the errors it contributes. -/
def emailCheck (v : JsValue) : List String :=
  if v.falsy || !v.isStr || trimStr v.asStr == "" then [emailReqErrMsg]
  else if !emailMatch v.asStr then [emailFmtErrMsg]
  else []

/-- Whether a character is a digit in the given radix (only radix 10 and 16
arise from parseInt with no radix argument). -/
def isRadixDigit (radix : Nat) (c : Char) : Bool :=
  if radix == 16 then
    c.isDigit || ('a' ≤ c && c ≤ 'f') || ('A' ≤ c && c ≤ 'F')
  else
    c.isDigit

/-- The numeric value of a digit character. -/
def digitVal (c : Char) : Nat :=
  if c.isDigit then c.toNat - '0'.toNat
  else if 'a' ≤ c && c ≤ 'f' then c.toNat - 'a'.toNat + 10
  else if 'A' ≤ c && c ≤ 'F' then c.toNat - 'A'.toNat + 10
  else 0

/-- Value of a digit list in the given radix, most significant first. -/
def digitsToNat (radix : Nat) (l : List Char) : Nat :=
  l.foldl (fun acc c => acc * radix + digitVal c) 0

/-- JS parseInt with no radix argument, as the source calls it on the id
path segment: skip leading whitespace, read an optional sign, switch to
radix 16 on a 0x or 0X prefix and radix 10 otherwise, then read the longest
digit run; no digits means NaN, modelled as none. -/
def parseIntJS (s : String) : Option Int :=
  let l := s.data.dropWhile Char.isWhitespace
  let sl : Int × List Char :=
    match l with
    | '-' :: r => (-1, r)
    | '+' :: r => (1, r)
    | _ => (1, l)
  let rl : Nat × List Char :=
    match sl.2 with
    | '0' :: 'x' :: r => (16, r)
    | '0' :: 'X' :: r => (16, r)
    | _ => (10, sl.2)
  let digits := rl.2.takeWhile (isRadixDigit rl.1)
  if digits.isEmpty then none
  else some (sl.1 * (digitsToNat rl.1 digits : Int))

/-- A stored user record. createdAt is an abstract timestamp. -/
structure User where
  id : Int
  name : String
  email : String
  createdAt : Nat
deriving DecidableEq, Repr

/-- Lookup in the users object (users[id] in the source). -/
def storeGet : List (Int × User) → Int → Option User
  | [], _ => none
  | (k, u) :: rest, id => if id = k then some u else storeGet rest id

/-- Insert-or-overwrite in the users object (users[id] = u). -/
def storePut : List (Int × User) → Int → User → List (Int × User)
  | [], id, u => [(id, u)]
  | (k, v) :: rest, id, u =>
      if k = id then (id, u) :: rest else (k, v) :: storePut rest id u

/-- Key removal from the users object (delete users[id]). -/
def storeRemove (l : List (Int × User)) (id : Int) : List (Int × User) :=
  l.filter (fun p => p.1 ≠ id)

/-- The module-level state: the users object plus the nextId counter. -/
structure Store where
  users : List (Int × User)
  nextId : Int
deriving DecidableEq, Repr

/-- The state at process start: no users, counter at 1. -/
def initStore : Store := ⟨[], 1⟩

/-- An HTTP response as produced by the handlers. -/
inductive Response where
  | okUser (u : User)
  | okList (l : List User)
  | created (u : User)
  | noContent
  | badRequestInvalidId
  | badRequestValidation (details : List String)
  | notFound
deriving DecidableEq, Repr

/-- The HTTP status code of a response. noContent carries an empty body. -/
def Response.status : Response → Nat
  | .okUser _ => 200
  | .okList _ => 200
  | .created _ => 201
  | .noContent => 204
  | .badRequestInvalidId => 400
  | .badRequestValidation _ => 400
  | .notFound => 404

/-- GET /users: list all users. Reads the store, never writes it. -/
def handleListUsers (st : Store) : Response × Store :=
  (Response.okList (st.users.map Prod.snd), st)

/-- GET /users/:id: parse the id (400 on NaN), look it up (404 when
absent), return the user. Never writes the store. -/
def handleGetUser (st : Store) (idStr : String) : Response × Store :=
  match parseIntJS idStr with
  | none => (Response.badRequestInvalidId, st)
  | some id =>
    match storeGet st.users id with
    | none => (Response.notFound, st)
    | some u => (Response.okUser u, st)

/-- POST /users: validate the body (400 with the error list when invalid),
then build the new user from the allocated id, the trimmed name and email
and the current time, store it, and answer 201. -/
def handlePostUsers (st : Store) (body : Body) (now : Nat) : Response × Store :=
  let v := validateUserData body
  if !v.1 then
    (Response.badRequestValidation v.2, st)
  else
    let newUser : User :=
      { id := st.nextId, name := trimStr body.name.asStr,
        email := trimStr body.email.asStr, createdAt := now }
    (Response.created newUser,
      { users := storePut st.users newUser.id newUser, nextId := st.nextId + 1 })

/-- PUT /users/:id: parse the id (400 on NaN), look the user up (404 when
absent), validate the body (400 with the error list when invalid), then
overwrite name and email with the trimmed values, keeping id and createdAt
through the spread, and answer 200 with the stored record. -/
def handlePutUser (st : Store) (idStr : String) (body : Body) : Response × Store :=
  match parseIntJS idStr with
  | none => (Response.badRequestInvalidId, st)
  | some id =>
    match storeGet st.users id with
    | none => (Response.notFound, st)
    | some user =>
      let v := validateUserData body
      if !v.1 then
        (Response.badRequestValidation v.2, st)
      else
        let updated : User :=
          { user with name := trimStr body.name.asStr,
                      email := trimStr body.email.asStr }
        (Response.okUser updated,
          { users := storePut st.users id updated, nextId := st.nextId })

/-- DELETE /users/:id: parse the id (400 on NaN), look the user up (404
when absent), remove the key and answer 204 with an empty body. -/
def handleDeleteUser (st : Store) (idStr : String) : Response × Store :=
  match parseIntJS idStr with
  | none => (Response.badRequestInvalidId, st)
  | some id =>
    match storeGet st.users id with
    | none => (Response.notFound, st)
    | some _ =>
      (Response.noContent, { users := storeRemove st.users id, nextId := st.nextId })

/-- One inbound request, with the data each handler consumes. -/
inductive Op where
  | listOp
  | getOp (idStr : String)
  | postOp (body : Body) (now : Nat)
  | putOp (idStr : String) (body : Body)
  | deleteOp (idStr : String)

/-- Dispatch of one request to its handler. -/
def step (st : Store) : Op → Response × Store
  | .listOp => handleListUsers st
  | .getOp idStr => handleGetUser st idStr
  | .postOp body now => handlePostUsers st body now
  | .putOp idStr body => handlePutUser st idStr body
  | .deleteOp idStr => handleDeleteUser st idStr

/-- The list of responses produced by a request sequence. -/
def run (st : Store) : List Op → List Response
  | [] => []
  | op :: ops => (step st op).1 :: run (step st op).2 ops

/-- The id carried by a 201 Created response, if any. -/
def Response.createdId : Response → Option Int
  | .created u => some u.id
  | _ => none

/-- The ids handed out by the create operations of a request sequence, in
order. -/
def createdIds (st : Store) (ops : List Op) : List Int :=
  (run st ops).filterMap Response.createdId

/-- The number of requests in the sequence that are creates with a body
passing validation (exactly those that allocate an id). -/
def countValidPosts : List Op → Nat
  | [] => 0
  | .postOp body _ :: ops =>
      (if (validateUserData body).1 then 1 else 0) + countValidPosts ops
  | _ :: ops => countValidPosts ops

/-- The length-k list of consecutive integers starting at n. -/
def idRange (n : Int) : Nat → List Int
  | 0 => []
  | k + 1 => n :: idRange (n + 1) k

/-! ### Store lemmas -/

theorem storeGet_storePut_self (l : List (Int × User)) (k : Int) (u : User) :
    storeGet (storePut l k u) k = some u := by
  induction l with
  | nil => simp [storePut, storeGet]
  | cons p rest ih =>
    obtain ⟨k', u'⟩ := p
    by_cases h : k' = k
    · simp [storePut, h, storeGet]
    · simp [storePut, h, storeGet, Ne.symm h, ih]

theorem storeGet_storePut_ne (l : List (Int × User)) (k : Int) (u : User)
    (j : Int) (h : j ≠ k) : storeGet (storePut l k u) j = storeGet l j := by
  induction l with
  | nil => simp [storePut, storeGet, h]
  | cons p rest ih =>
    obtain ⟨k', u'⟩ := p
    by_cases hk : k' = k
    · subst hk
      simp [storePut, storeGet, h]
    · simp only [storePut, if_neg hk, storeGet]
      by_cases hj : j = k'
      · simp [hj]
      · simp [hj, ih]

theorem storeGet_storeRemove_self (l : List (Int × User)) (k : Int) :
    storeGet (storeRemove l k) k = none := by
  induction l with
  | nil => simp [storeRemove, storeGet]
  | cons p rest ih =>
    obtain ⟨k', u'⟩ := p
    by_cases h : k' = k
    · simpa [storeRemove, h] using ih
    · simpa [storeRemove, storeGet, h, Ne.symm h] using ih

theorem storeGet_storeRemove_ne (l : List (Int × User)) (k : Int)
    (j : Int) (h : j ≠ k) : storeGet (storeRemove l k) j = storeGet l j := by
  induction l with
  | nil => simp [storeRemove, storeGet]
  | cons p rest ih =>
    obtain ⟨k', u'⟩ := p
    by_cases hk : k' = k
    · subst hk
      simpa [storeRemove, storeGet, h] using ih
    · by_cases hj : j = k'
      · subst hj
        simp [storeRemove, storeGet, List.filter_cons, hk]
      · simpa [storeRemove, storeGet, hk, hj] using ih

/-! ### Handler-shape lemmas and the read-only claims -/

/-- Whether an operation is one of the three store-mutating routes. -/
def Op.isMut : Op → Bool
  | .postOp _ _ => true
  | .putOp _ _ => true
  | .deleteOp _ => true
  | _ => false

/-- C9: GET /users/:id is idempotent and side-effect free: the handler
leaves the store (users mapping and id counter alike) unchanged, and
running it a second time on the resulting store returns the identical
response and store. -/
theorem get_user_idempotent (st : Store) (idStr : String) :
    (handleGetUser st idStr).2 = st ∧
    handleGetUser (handleGetUser st idStr).2 idStr = handleGetUser st idStr := by
  have h2 : (handleGetUser st idStr).2 = st := by
    cases hp : parseIntJS idStr with
    | none => simp [handleGetUser, hp]
    | some id => cases hg : storeGet st.users id <;> simp [handleGetUser, hp, hg]
  exact ⟨h2, by rw [h2]⟩

/-- C4: every 400 or 404 response from the mutating routes (POST /users,
PUT /users/:id, DELETE /users/:id) leaves the store exactly as it was:
same users mapping and same id counter. -/
theorem error_responses_atomic (st : Store) (op : Op) (hmut : op.isMut = true)
    (herr : (step st op).1.status = 400 ∨ (step st op).1.status = 404) :
    (step st op).2 = st := by
  cases op with
  | listOp => simp [Op.isMut] at hmut
  | getOp idStr => simp [Op.isMut] at hmut
  | postOp body now =>
    simp only [step, handlePostUsers] at herr ⊢
    by_cases hv : (validateUserData body).1
    · simp [hv, Response.status] at herr
    · simp [hv]
  | putOp idStr body =>
    simp only [step] at herr ⊢
    unfold handlePutUser at herr ⊢
    cases hp : parseIntJS idStr with
    | none => simp [hp]
    | some id =>
      simp only [hp] at herr ⊢
      cases hg : storeGet st.users id with
      | none => simp [hg]
      | some u =>
        simp only [hg] at herr ⊢
        by_cases hv : (validateUserData body).1
        · simp [hv, Response.status] at herr
        · simp [hv]
  | deleteOp idStr =>
    simp only [step] at herr ⊢
    unfold handleDeleteUser at herr ⊢
    cases hp : parseIntJS idStr with
    | none => simp [hp]
    | some id =>
      simp only [hp] at herr ⊢
      cases hg : storeGet st.users id with
      | none => simp [hg]
      | some u => simp [hg, Response.status] at herr

/-- Witness for error atomicity: a malformed id on PUT yields a 400 and the
initial store is returned unchanged. -/
theorem error_responses_atomic_witness :
    (step initStore (Op.putOp "abc" ⟨JsValue.str "x", JsValue.str "a@b.c"⟩)).2
      = initStore :=
  error_responses_atomic initStore (Op.putOp "abc" ⟨JsValue.str "x", JsValue.str "a@b.c"⟩)
    (by decide) (Or.inl (by decide))

/-! ### Fixtures for witnesses -/

/-- A sample user record, as created by the service. -/
def annUser : User := ⟨1, "Ann", "ann@x.com", 0⟩

/-- A sample store holding one user with id 1 and counter 2. -/
def annStore : Store := ⟨[(1, annUser)], 2⟩

/-! ### Update and delete claims -/

/-- C2: for a stored user with id k, a PUT whose id parses to k and whose
body passes validation stores and returns a user whose id and createdAt are
the pre-update values and whose name and email are the trimmed body fields;
no other key of the store and not the counter changes. -/
theorem put_preserves_identity (st : Store) (idStr : String) (k : Int) (u : User)
    (body : Body) (hp : parseIntJS idStr = some k)
    (hu : storeGet st.users k = some u)
    (hv : (validateUserData body).1 = true) :
    ∃ u' : User,
      handlePutUser st idStr body
        = (Response.okUser u', ⟨storePut st.users k u', st.nextId⟩) ∧
      u'.id = u.id ∧ u'.createdAt = u.createdAt ∧
      u'.name = trimStr body.name.asStr ∧
      u'.email = trimStr body.email.asStr ∧
      storeGet (handlePutUser st idStr body).2.users k = some u' ∧
      (∀ j : Int, j ≠ k →
        storeGet (handlePutUser st idStr body).2.users j = storeGet st.users j) ∧
      (handlePutUser st idStr body).2.nextId = st.nextId := by
  have heq : handlePutUser st idStr body
      = (Response.okUser
          { u with name := trimStr body.name.asStr, email := trimStr body.email.asStr },
         ⟨storePut st.users k
            { u with name := trimStr body.name.asStr, email := trimStr body.email.asStr },
          st.nextId⟩) := by
    unfold handlePutUser
    simp [hp, hu, hv]
  refine ⟨_, heq, rfl, rfl, rfl, rfl, ?_, ?_, ?_⟩
  · rw [heq]
    exact storeGet_storePut_self _ _ _
  · intro j hj
    rw [heq]
    exact storeGet_storePut_ne _ _ _ _ hj
  · rw [heq]

/-- Witness: updating the sample user leaves the counter at 2. -/
theorem put_preserves_identity_witness :
    ((handlePutUser annStore "1" ⟨JsValue.str " Bob ", JsValue.str "bob@x.com"⟩).2).nextId
      = 2 := by
  obtain ⟨u', -, -, -, -, -, -, -, h⟩ :=
    put_preserves_identity annStore "1" 1 annUser
      ⟨JsValue.str " Bob ", JsValue.str "bob@x.com"⟩
      (by decide) (by decide) (by decide)
  exact h

/-- C7: deleting a stored user with id k answers 204 with an empty body
and removes the key, so a following GET answers 404 and a following DELETE
answers 404 rather than 204; the counter is untouched. -/
theorem delete_terminal (st : Store) (idStr : String) (k : Int) (u : User)
    (hp : parseIntJS idStr = some k) (hu : storeGet st.users k = some u) :
    handleDeleteUser st idStr
      = (Response.noContent, ⟨storeRemove st.users k, st.nextId⟩) ∧
    Response.noContent.status = 204 ∧
    storeGet (storeRemove st.users k) k = none ∧
    handleGetUser ⟨storeRemove st.users k, st.nextId⟩ idStr
      = (Response.notFound, ⟨storeRemove st.users k, st.nextId⟩) ∧
    handleDeleteUser ⟨storeRemove st.users k, st.nextId⟩ idStr
      = (Response.notFound, ⟨storeRemove st.users k, st.nextId⟩) := by
  have hrm := storeGet_storeRemove_self st.users k
  refine ⟨?_, rfl, hrm, ?_, ?_⟩
  · unfold handleDeleteUser
    simp [hp, hu]
  · unfold handleGetUser
    simp [hp, hrm]
  · unfold handleDeleteUser
    simp [hp, hrm]

/-- Witness: deleting the sample user answers 204 and removes the key. -/
theorem delete_terminal_witness :
    handleDeleteUser annStore "1"
      = (Response.noContent, ⟨storeRemove annStore.users 1, annStore.nextId⟩) :=
  (delete_terminal annStore "1" 1 annUser (by decide) (by decide)).1

/-- C3 as stated is refuted: with an empty store, PUT /users/1 with a body
failing validation answers 404, not 400 — the handler checks existence
before validating the body. -/
theorem put_invalid_body_counterexample :
    parseIntJS "1" = some 1 ∧
    (validateUserData ⟨JsValue.str "", JsValue.str "bad"⟩).1 = false ∧
    handlePutUser initStore "1" ⟨JsValue.str "", JsValue.str "bad"⟩
      = (Response.notFound, initStore) ∧
    (handlePutUser initStore "1" ⟨JsValue.str "", JsValue.str "bad"⟩).1.status ≠ 400 := by
  exact ⟨by decide, by decide, by decide, by decide⟩

/-- C3 amended: when the id parses and the user exists, a body failing
validation yields 400 with the validation error list; when no user has the
id, the response is 404 regardless of the body, because existence is
checked before validation. -/
theorem put_validation_after_existence (st : Store) (idStr : String) (k : Int)
    (body : Body) (hp : parseIntJS idStr = some k) :
    (∀ u : User, storeGet st.users k = some u →
      (validateUserData body).1 = false →
      handlePutUser st idStr body
        = (Response.badRequestValidation (validateUserData body).2, st)) ∧
    (storeGet st.users k = none →
      handlePutUser st idStr body = (Response.notFound, st)) := by
  constructor
  · intro u hu hv
    unfold handlePutUser
    simp [hp, hu, hv]
  · intro hu
    unfold handlePutUser
    simp [hp, hu]

/-- Witness: in the sample store, PUT with an invalid body on the existing
id 1 answers 400 with the accumulated error list. -/
theorem put_validation_after_existence_witness :
    handlePutUser annStore "1" ⟨JsValue.str "", JsValue.str "bad"⟩
      = (Response.badRequestValidation
          (validateUserData ⟨JsValue.str "", JsValue.str "bad"⟩).2, annStore) :=
  (put_validation_after_existence annStore "1" 1 ⟨JsValue.str "", JsValue.str "bad"⟩
    (by decide)).1 annUser (by decide) (by decide)

/-! ### Validation accumulation -/

/-- The accumulated error list is the name-field errors followed by the
email-field errors; the two checks are independent. -/
theorem validateUserData_split (b : Body) :
    (validateUserData b).2 = nameCheck b.name ++ emailCheck b.email := by
  unfold validateUserData nameCheck emailCheck
  split_ifs <;> simp

/-- C5: validation accumulates instead of short-circuiting: the error list
is always the independent name-check errors followed by the email-check
errors; POST with name "" and email "bad" answers 400 carrying exactly the
name error and the email-format error; and the two email error messages
never occur together for one input. -/
theorem validation_accumulates :
    (∀ b : Body, (validateUserData b).2 = nameCheck b.name ++ emailCheck b.email) ∧
    handlePostUsers initStore ⟨JsValue.str "", JsValue.str "bad"⟩ 0
      = (Response.badRequestValidation [nameErrMsg, emailFmtErrMsg], initStore) ∧
    (∀ b : Body,
      (((validateUserData b).2.contains emailReqErrMsg)
        && ((validateUserData b).2.contains emailFmtErrMsg)) = false) := by
  refine ⟨validateUserData_split, by decide, ?_⟩
  intro b
  rw [validateUserData_split]
  unfold nameCheck emailCheck
  split_ifs <;> decide

/-! ### Id allocation across request sequences -/

/-- GET never answers 201 and never moves the counter. -/
theorem handleGetUser_no_create (st : Store) (idStr : String) :
    (handleGetUser st idStr).1.createdId = none ∧
    (handleGetUser st idStr).2.nextId = st.nextId := by
  cases hp : parseIntJS idStr with
  | none => simp [handleGetUser, hp, Response.createdId]
  | some id =>
    cases hg : storeGet st.users id <;>
      simp [handleGetUser, hp, hg, Response.createdId]

/-- PUT never answers 201 and never moves the counter. -/
theorem handlePutUser_no_create (st : Store) (idStr : String) (body : Body) :
    (handlePutUser st idStr body).1.createdId = none ∧
    (handlePutUser st idStr body).2.nextId = st.nextId := by
  unfold handlePutUser
  cases hp : parseIntJS idStr with
  | none => simp [Response.createdId]
  | some id =>
    cases hg : storeGet st.users id with
    | none => simp [hg, Response.createdId]
    | some u =>
      by_cases hv : (validateUserData body).1 <;>
        simp [hg, hv, Response.createdId]

/-- DELETE never answers 201 and never moves the counter. -/
theorem handleDeleteUser_no_create (st : Store) (idStr : String) :
    (handleDeleteUser st idStr).1.createdId = none ∧
    (handleDeleteUser st idStr).2.nextId = st.nextId := by
  unfold handleDeleteUser
  cases hp : parseIntJS idStr with
  | none => simp [Response.createdId]
  | some id =>
    cases hg : storeGet st.users id <;> simp [hg, Response.createdId]

/-- A POST with a valid body creates the user at the current counter value,
stores it there and advances the counter by one. -/
theorem handlePostUsers_valid (st : Store) (body : Body) (now : Nat)
    (hv : (validateUserData body).1 = true) :
    handlePostUsers st body now
      = (Response.created
          ⟨st.nextId, trimStr body.name.asStr, trimStr body.email.asStr, now⟩,
         ⟨storePut st.users st.nextId
            ⟨st.nextId, trimStr body.name.asStr, trimStr body.email.asStr, now⟩,
          st.nextId + 1⟩) := by
  unfold handlePostUsers
  simp [hv]

/-- A POST with an invalid body answers 400 and changes nothing. -/
theorem handlePostUsers_invalid (st : Store) (body : Body) (now : Nat)
    (hv : (validateUserData body).1 = false) :
    handlePostUsers st body now
      = (Response.badRequestValidation (validateUserData body).2, st) := by
  unfold handlePostUsers
  simp [hv]

/-- From any store, the ids handed out by the creates of a request sequence
are the consecutive integers starting at the current counter, one per create
whose body passes validation. -/
theorem createdIds_eq (ops : List Op) : ∀ st : Store,
    createdIds st ops = idRange st.nextId (countValidPosts ops) := by
  induction ops with
  | nil => intro st; rfl
  | cons op ops ih =>
    intro st
    cases op with
    | listOp =>
      simp only [createdIds, run, List.filterMap_cons, step, handleListUsers,
        Response.createdId, countValidPosts]
      exact ih st
    | getOp idStr =>
      obtain ⟨h1, h2⟩ := handleGetUser_no_create st idStr
      simp only [createdIds, run, List.filterMap_cons, step, h1, countValidPosts]
      rw [← h2]
      exact ih _
    | putOp idStr body =>
      obtain ⟨h1, h2⟩ := handlePutUser_no_create st idStr body
      simp only [createdIds, run, List.filterMap_cons, step, h1, countValidPosts]
      rw [← h2]
      exact ih _
    | deleteOp idStr =>
      obtain ⟨h1, h2⟩ := handleDeleteUser_no_create st idStr
      simp only [createdIds, run, List.filterMap_cons, step, h1, countValidPosts]
      rw [← h2]
      exact ih _
    | postOp body now =>
      by_cases hv : (validateUserData body).1
      · have hpost := handlePostUsers_valid st body now hv
        simp only [createdIds, run, List.filterMap_cons, step, hpost,
          Response.createdId]
        have hc : countValidPosts (Op.postOp body now :: ops)
            = countValidPosts ops + 1 := by
          simp [countValidPosts, hv, Nat.add_comm]
        rw [hc, idRange]
        have := ih (⟨storePut st.users st.nextId
            ⟨st.nextId, trimStr body.name.asStr, trimStr body.email.asStr, now⟩,
          st.nextId + 1⟩ : Store)
        simpa [createdIds] using congrArg (List.cons st.nextId) this
      · have hpost := handlePostUsers_invalid st body now
          (by simpa using hv)
        simp only [createdIds, run, List.filterMap_cons, step, hpost,
          Response.createdId]
        have hc : countValidPosts (Op.postOp body now :: ops)
            = countValidPosts ops := by
          simp [countValidPosts, hv]
        rw [hc]
        exact ih st

/-- Consecutive ranges are strictly increasing. -/
theorem idRange_chain (k : Nat) : ∀ n : Int, List.Chain' (· < ·) (idRange n k) := by
  induction k with
  | zero => intro n; simp [idRange]
  | succ k ih =>
    intro n
    rw [idRange, List.chain'_cons']
    refine ⟨?_, ih (n + 1)⟩
    intro b hb
    cases k with
    | zero => simp [idRange] at hb
    | succ k =>
      simp only [idRange, List.head?_cons, Option.mem_def, Option.some.injEq] at hb
      omega

/-- Consecutive ranges have no duplicates. -/
theorem idRange_nodup (k : Nat) (n : Int) : (idRange n k).Nodup := by
  have h := List.chain'_iff_pairwise.mp (idRange_chain k n)
  exact h.imp (fun hlt => ne_of_lt hlt)

/-- C1: from process start, the ids handed out by POST /users over any
request sequence are exactly 1, 2, ..., N for the N creates whose bodies
pass validation: strictly increasing, pairwise distinct, starting at 1, and
never reused by a later create even after the user was deleted. -/
theorem created_ids_monotone (ops : List Op) :
    createdIds initStore ops = idRange 1 (countValidPosts ops) ∧
    List.Chain' (· < ·) (createdIds initStore ops) ∧
    (createdIds initStore ops).Nodup := by
  have h := createdIds_eq ops initStore
  refine ⟨h, ?_, ?_⟩ <;> rw [h]
  · exact idRange_chain _ _
  · exact idRange_nodup _ _

/-! ### The email regex language -/

/-- dotNotLast holds exactly when the list splits around a dot with a
nonempty remainder after it. -/
theorem dotNotLast_iff (l : List Char) :
    dotNotLast l = true ↔ ∃ p q : List Char, q ≠ [] ∧ l = p ++ '.' :: q := by
  induction l with
  | nil =>
    simp only [dotNotLast, Bool.false_eq_true, false_iff]
    rintro ⟨p, q, hq, h⟩
    exact absurd h.symm (by simp)
  | cons c rest ih =>
    cases rest with
    | nil =>
      simp only [dotNotLast, Bool.false_eq_true, false_iff]
      rintro ⟨p, q, hq, h⟩
      cases p with
      | nil =>
        simp only [List.nil_append, List.cons.injEq] at h
        exact hq h.2.symm
      | cons a p =>
        simp only [List.cons_append, List.cons.injEq] at h
        exact absurd h.2.symm (by simp)
    | cons d t =>
      simp only [dotNotLast, Bool.or_eq_true, beq_iff_eq]
      constructor
      · rintro (h | h)
        · exact ⟨[], d :: t, by simp, by simp [h]⟩
        · obtain ⟨p, q, hq, heq⟩ := ih.mp h
          exact ⟨c :: p, q, hq, by simp [heq]⟩
      · rintro ⟨p, q, hq, heq⟩
        cases p with
        | nil =>
          simp only [List.nil_append, List.cons.injEq] at heq
          exact Or.inl heq.1
        | cons a p =>
          simp only [List.cons_append, List.cons.injEq] at heq
          exact Or.inr (ih.mpr ⟨p, q, hq, heq.2⟩)

/-- Splitting at the first at sign: when the lead-in consists of class
characters (which exclude the at sign), takeWhile and dropWhile cut exactly
there. -/
theorem splitAtFirstAt (A t : List Char) (h : ∀ c ∈ A, isEmailChar c = true) :
    (A ++ '@' :: t).takeWhile (fun c => !(c == '@')) = A ∧
    (A ++ '@' :: t).dropWhile (fun c => !(c == '@')) = '@' :: t := by
  induction A with
  | nil => constructor <;> simp [List.takeWhile_cons, List.dropWhile_cons]
  | cons a A ih =>
    have ha : isEmailChar a = true := h a (by simp)
    have ha' : (a == '@') = false := by
      unfold isEmailChar at ha
      cases hb : (a == '@') with
      | false => rfl
      | true => rw [hb] at ha; simp at ha
    obtain ⟨ih1, ih2⟩ := ih (fun c hc => h c (by simp [hc]))
    constructor
    · simp [List.takeWhile_cons, ha', ih1]
    · simp [List.dropWhile_cons, ha', ih2]

/-- The matcher accepts exactly the language of the anchored email regex:
a nonempty class chunk, an at sign, a nonempty class chunk, a dot, and a
nonempty class chunk. -/
theorem emailMatchL_iff (l : List Char) : emailMatchL l = true ↔ EmailPatternL l := by
  constructor
  · intro h
    unfold emailMatchL at h
    cases hd : l.dropWhile (fun c => !(c == '@')) with
    | nil => rw [hd] at h; simp at h
    | cons a tl =>
      cases tl with
      | nil => rw [hd] at h; simp at h
      | cons d rest =>
        rw [hd] at h
        simp only [Bool.and_eq_true, beq_iff_eq, Bool.not_eq_true',
          List.all_eq_true] at h
        obtain ⟨⟨⟨⟨⟨ha, hne⟩, hloc⟩, hdchar⟩, hrest⟩, hdot⟩ := h
        obtain ⟨p, q, hq, hpq⟩ := (dotNotLast_iff rest).mp hdot
        refine ⟨l.takeWhile (fun c => !(c == '@')), d :: p, q, ?_, by simp, hq,
          ?_, ?_, ?_, ?_⟩
        · intro hcontra
          rw [hcontra] at hne
          simp at hne
        · intro c hc
          exact hloc c hc
        · intro c hc
          rcases List.mem_cons.mp hc with rfl | hc
          · exact hdchar
          · exact hrest c (by simp [hpq, hc])
        · intro c hc
          exact hrest c (by simp [hpq, hc])
        · have hsplit := List.takeWhile_append_dropWhile
            (p := fun c => !(c == '@')) (l := l)
          rw [hd, ha] at hsplit
          conv_lhs => rw [← hsplit]
          rw [hpq]
          simp
  · rintro ⟨A, B, C, hA, hB, hC, hAc, hBc, hCc, rfl⟩
    obtain ⟨htake, hdrop⟩ := splitAtFirstAt A (B ++ '.' :: C) hAc
    cases B with
    | nil => exact absurd rfl hB
    | cons b0 B =>
      have hA' : A.isEmpty = false := by
        cases A with
        | nil => exact absurd rfl hA
        | cons a t => rfl
      have hallA : A.all isEmailChar = true := List.all_eq_true.mpr hAc
      have hb0 : isEmailChar b0 = true := hBc b0 (by simp)
      have hrest : (B ++ '.' :: C).all isEmailChar = true := by
        rw [List.all_eq_true]
        intro c hc
        rcases List.mem_append.mp hc with hc | hc
        · exact hBc c (by simp [hc])
        · rcases List.mem_cons.mp hc with rfl | hc
          · decide
          · exact hCc c hc
      have hdot : dotNotLast (B ++ '.' :: C) = true :=
        (dotNotLast_iff _).mpr ⟨B, C, hC, rfl⟩
      unfold emailMatchL
      rw [hdrop, htake]
      simp only [List.cons_append]
      simp [hA', hallA, hb0, hrest, hdot]

/-- C6: the email validity test accepts exactly the strings in the language
of the anchored pattern: a nonempty chunk of characters that are neither
whitespace nor the at sign, an at sign, another such nonempty chunk, a dot,
and another such nonempty chunk; a@b.c is accepted while a@b and
noatsign.com are rejected and draw the format error message. -/
theorem email_pattern_exact :
    (∀ s : String, emailMatch s = true ↔ EmailPatternL s.data) ∧
    emailMatch "a@b.c" = true ∧
    emailMatch "a@b" = false ∧
    emailMatch "noatsign.com" = false ∧
    (validateUserData ⟨JsValue.str "x", JsValue.str "a@b"⟩).2 = [emailFmtErrMsg] ∧
    (validateUserData ⟨JsValue.str "x", JsValue.str "noatsign.com"⟩).2
      = [emailFmtErrMsg] := by
  exact ⟨fun s => emailMatchL_iff s.data, by decide, by decide, by decide,
    by decide, by decide⟩

/-! ### Untrimmed email input -/

/-- dropWhile whitespace is the identity on whitespace-free lists. -/
theorem dropWhile_ws_eq_self (m : List Char)
    (hm : ∀ c ∈ m, c.isWhitespace = false) :
    m.dropWhile Char.isWhitespace = m := by
  cases m with
  | nil => rfl
  | cons a t =>
    rw [List.dropWhile_cons]
    simp [hm a (by simp)]

/-- Trimming is the identity on whitespace-free lists. -/
theorem trimL_eq_self (l : List Char) (h : ∀ c ∈ l, c.isWhitespace = false) :
    trimL l = l := by
  unfold trimL
  rw [dropWhile_ws_eq_self l h,
    dropWhile_ws_eq_self l.reverse (fun c hc => h c (List.mem_reverse.mp hc))]
  exact List.reverse_reverse l

/-- The validity flag is the emptiness of the error list, by definition. -/
theorem validateUserData_fst (b : Body) :
    (validateUserData b).1 = (validateUserData b).2.isEmpty := rfl

/-- An empty email check means the email passed the regex. -/
theorem emailCheck_nil_match (v : JsValue) (h : emailCheck v = []) :
    emailMatch v.asStr = true := by
  unfold emailCheck at h
  by_cases h1 : (v.falsy || !v.isStr || trimStr v.asStr == "") = true
  · rw [if_pos h1] at h
    exact absurd h (by simp)
  · rw [if_neg h1] at h
    cases hm : emailMatch v.asStr with
    | true => rfl
    | false => rw [hm] at h; simp at h

/-- C10: the regex is tested on the untrimmed email input with anchors at
both ends, so every accepted email contains no whitespace at all and equals
its own trim; the whitespace-led " a@b.c" draws the format error message,
and the trim applied when storing an accepted email is a no-op: the stored
email equals the raw body value. -/
theorem email_checked_untrimmed :
    (∀ s : String, emailMatch s = true →
      (∀ c ∈ s.data, c.isWhitespace = false) ∧ trimStr s = s) ∧
    (validateUserData ⟨JsValue.str "x", JsValue.str " a@b.c"⟩).2
      = [emailFmtErrMsg] ∧
    (∀ (st : Store) (body : Body) (now : Nat) (u : User) (st' : Store),
      handlePostUsers st body now = (Response.created u, st') →
      u.email = body.email.asStr) := by
  have hclass : ∀ d : Char, isEmailChar d = true → d.isWhitespace = false := by
    intro d hd
    unfold isEmailChar at hd
    cases hw : d.isWhitespace with
    | false => rfl
    | true => rw [hw] at hd; simp at hd
  have hnows : ∀ s : String, emailMatch s = true →
      ∀ c ∈ s.data, c.isWhitespace = false := by
    intro s hs c hc
    obtain ⟨A, B, C, hA, hB, hC, hAc, hBc, hCc, heq⟩ :=
      (emailMatchL_iff s.data).mp hs
    rw [heq] at hc
    rcases List.mem_append.mp hc with hc | hc
    · exact hclass c (hAc c hc)
    · rcases List.mem_cons.mp hc with rfl | hc
      · decide
      · rcases List.mem_append.mp hc with hc | hc
        · exact hclass c (hBc c hc)
        · rcases List.mem_cons.mp hc with rfl | hc
          · decide
          · exact hclass c (hCc c hc)
  refine ⟨?_, by decide, ?_⟩
  · intro s hs
    refine ⟨hnows s hs, ?_⟩
    show String.mk (trimL s.data) = s
    rw [trimL_eq_self s.data (hnows s hs)]
  · intro st body now u st' hpost
    by_cases hv : (validateUserData body).1
    · rw [handlePostUsers_valid st body now hv] at hpost
      have hu : u = ⟨st.nextId, trimStr body.name.asStr,
          trimStr body.email.asStr, now⟩ := by
        have h1 := congrArg Prod.fst hpost
        simp only [Response.created.injEq] at h1
        exact h1.symm
      have h2 : (validateUserData body).2 = [] := by
        rw [validateUserData_fst, List.isEmpty_iff] at hv
        exact hv
      rw [validateUserData_split] at h2
      have hmail : emailMatch body.email.asStr = true :=
        emailCheck_nil_match _ (List.append_eq_nil.mp h2).2
      have htrim : trimStr body.email.asStr = body.email.asStr := by
        show String.mk (trimL _) = _
        rw [trimL_eq_self _ (hnows _ hmail)]
      rw [hu]
      exact htrim
    · rw [handlePostUsers_invalid st body now (by simpa using hv)] at hpost
      simp [Prod.mk.injEq] at hpost

/-- Witness: the accepted email a@b.c is its own trim. -/
theorem email_checked_untrimmed_witness : trimStr "a@b.c" = "a@b.c" :=
  (email_checked_untrimmed.1 "a@b.c" (by decide)).2

/-! ### Id segment parsing -/

/-- C8 as stated is refuted: the segment -1 does not start with a digit,
yet parseInt accepts it through its sign handling, and a GET of that
segment answers 404 User not found instead of the 400 Invalid user ID the claim
requires for every segment without a leading numeric prefix. -/
theorem id_parsing_counterexample :
    "-1".data.head? = some '-' ∧ '-'.isDigit = false ∧
    parseIntJS "-1" = some (-1) ∧
    handleGetUser initStore "-1" = (Response.notFound, initStore) ∧
    (handleGetUser initStore "-1").1.status ≠ 400 := by
  exact ⟨by decide, by decide, by decide, by decide, by decide⟩

/-- C8 amended: the id segment is parsed with JS parseInt semantics:
optional leading whitespace, an optional sign, an optional 0x hex prefix,
then the longest digit run, with failure when no digit is found there.
Whenever that parse fails, each of GET, PUT and DELETE answers 400 Invalid
user ID with the store unchanged, and abc is such a segment: GET /users/abc
answers 400, not 404 and not a crash. -/
theorem id_parsing_amended :
    (∀ (st : Store) (idStr : String), parseIntJS idStr = none →
      handleGetUser st idStr = (Response.badRequestInvalidId, st) ∧
      (∀ body : Body,
        handlePutUser st idStr body = (Response.badRequestInvalidId, st)) ∧
      handleDeleteUser st idStr = (Response.badRequestInvalidId, st)) ∧
    parseIntJS "abc" = none ∧
    handleGetUser initStore "abc" = (Response.badRequestInvalidId, initStore) ∧
    Response.badRequestInvalidId.status = 400 := by
  refine ⟨?_, by decide, by decide, rfl⟩
  intro st idStr hp
  refine ⟨?_, ?_, ?_⟩
  · unfold handleGetUser
    rw [hp]
  · intro body
    unfold handlePutUser
    rw [hp]
  · unfold handleDeleteUser
    rw [hp]

/-- Witness: a non-numeric segment draws the 400 on GET. -/
theorem id_parsing_amended_witness :
    handleGetUser initStore "xyz" = (Response.badRequestInvalidId, initStore) :=
  (id_parsing_amended.1 initStore "xyz" (by decide)).1
